import Mathlib

/-
Verification development for the whidl HDL compiler/simulator.

The definitions below are a shallow embedding of `src/parser.rs` and
`src/test_script.rs`.  Modules of the repository that are not present in
the source tree (the scanner, the bus map, the simulator and the generic
expression module) are modelled from the specification where needed; each
such definition carries a doc comment starting with "Modelled from the
spec:".  Rust `panic!`/`unwrap` crashes are modelled by explicit `crash`
constructors of the result types; `Result::Err` values are modelled by
`err`/`error` constructors.
-/

set_option autoImplicit false

namespace Whidl

/-- Modelled from the spec: number systems carried by test-script literals
(section 4.8); the enum itself lives in the test parser module, which is not
under src/. -/
inductive NumberSystem where
  | decimal
  | binary
  | hex
  | string
  deriving DecidableEq, Repr

/-- Modelled from the spec: a test-script literal value (test parser module,
not under src/): a number system together with the raw literal text, as used
by `test_input_to_bitvec` in src/test_script.rs. -/
structure InputValue where
  numberSystem : NumberSystem
  value : String
  deriving DecidableEq, Repr

/-- Result of a Rust function that either returns a bit vector or panics.
`crash msg` models `panic!(msg)` / `.unwrap()` on a failed parse. -/
inductive TIBRes where
  | ok (bits : List Bool)
  | crash (msg : String)
  deriving DecidableEq, Repr

/-- Digit-list accumulator for Rust-style integer parsing. -/
def parseNatAux : List Char → Nat → Option Nat
  | [], acc => some acc
  | c :: r, acc =>
    if c.isDigit then parseNatAux r (acc * 10 + (c.toNat - 48)) else none

/-- Rust `str::parse::<usize>()` modelled over the character list. -/
def parseNat? (s : String) : Option Nat :=
  match s.toList with
  | [] => none
  | c :: r => parseNatAux (c :: r) 0

/-- Rust signed integer parsing (optional leading minus) modelled over the
character list. -/
def parseInt? (s : String) : Option Int :=
  match s.toList with
  | [] => none
  | '-' :: r =>
    match r with
    | [] => none
    | _ => (parseNatAux r 0).map (fun n => -(n : Int))
  | cs => (parseNatAux cs 0).map (fun n => (n : Int))

/-- Rust `str::parse::<i16>()`: integer parse plus the i16 range check;
`none` models the parse error (which the source unwraps). -/
def parseI16? (s : String) : Option Int :=
  match parseInt? s with
  | some n => if -32768 ≤ n ∧ n ≤ 32767 then some n else none
  | none => none

/-- The sixteen bits of the two's-complement encoding of `n`, most
significant bit first: mirrors `raw.view_bits_mut::<Msb0>().store_le(num)`
on a single `u16` element in `test_input_to_bitvec`. -/
def i16ToBitsMsb (n : Int) : List Bool :=
  (List.range 16).map (fun i => ((n % 65536).toNat).testBit (15 - i))

/-- The `NumberSystem::Binary` arm of `test_input_to_bitvec`: each character
must be '0' or '1' (otherwise the source panics, modelled by `none`). -/
def binBits? : List Char → Option (List Bool)
  | [] => some []
  | c :: rest =>
    match c with
    | '0' => (binBits? rest).map (fun bs => false :: bs)
    | '1' => (binBits? rest).map (fun bs => true :: bs)
    | _ => none

/-- Embeds `test_input_to_bitvec` (src/test_script.rs lines 18-49).  The
returned bits are MSB-first, exactly like the `BitVec<u16, Msb0>` of the
source.  Hex and String literals panic in the source. -/
def testInputToBitvec (input : InputValue) : TIBRes :=
  match input.numberSystem with
  | .decimal =>
    match parseI16? input.value with
    | some n => .ok (i16ToBitsMsb n)
    | none => .crash "i16 parse failure"
  | .binary =>
    match binBits? input.value.toList with
    | some bs => .ok bs
    | none => .crash "expected 0 or 1"
  | .hex => .crash "hex number system not supported yet."
  | .string => .crash "string number system not supported yet."

/-- Embeds `bitvec_to_vecbool` (src/test_script.rs lines 51-57): every bit
of the vector becomes `Some bit`. -/
def bitvecToVecbool (bv : List Bool) : List (Option Bool) :=
  bv.map some

/-- Modelled from the spec: `BusMap` (sections 3 and 4.6) — a mapping from
bus name to a sparse vector of `Option Bool` (`none` = undriven).  The bus
map module is not under src/. -/
structure BusMap where
  buses : List (String × List (Option Bool))
  deriving DecidableEq, Repr

/-- Modelled from the spec: a bus slice `{name, range?}` as consumed by
`BusMap::insert_option`. -/
structure Bus where
  name : String
  range : Option (Nat × Nat)
  deriving DecidableEq, Repr

def BusMap.new : BusMap := ⟨[]⟩

def BusMap.findBus (bm : BusMap) (n : String) : Option (List (Option Bool)) :=
  (bm.buses.find? (fun p => p.1 == n)).map (fun p => p.2)

/-- Replace (or add) the vector stored under name `n`. -/
def BusMap.setBus (bm : BusMap) (n : String) (bits : List (Option Bool)) : BusMap :=
  ⟨(n, bits) :: bm.buses.filter (fun p => p.1 != n)⟩

/-- Modelled from the spec: `create_bus(name, width)` declares a bus of the
given length, all bits undriven. -/
def BusMap.createBus (bm : BusMap) (n : String) (len : Nat) : BusMap :=
  bm.setBus n (List.replicate len none)

/-- Overlay `new` onto `old` starting at offset `off`. -/
def overlay (old new : List (Option Bool)) (off : Nat) : List (Option Bool) :=
  old.enum.map (fun p =>
    if off ≤ p.1 ∧ p.1 < off + new.length then (new.get? (p.1 - off)).getD p.2 else p.2)

/-- Modelled from the spec: `insert(bus_slice, values)` writes the values
into the named bus at the slice's range (whole bus when the range is
absent). -/
def BusMap.insertOption (bm : BusMap) (b : Bus) (vals : List (Option Bool)) : BusMap :=
  match bm.findBus b.name with
  | none => bm.setBus b.name vals
  | some old =>
    match b.range with
    | none => bm.setBus b.name vals
    | some (s, _) => bm.setBus b.name (overlay old vals s)

/-- Modelled from the spec: the `BusMap` partial order `a ≤ b` ("every
defined bit in a equals the same bit in b"; an undefined or missing output
bit under a defined expected bit is a failure), used by the `<=` comparison
in `run_test`'s Output instruction. -/
def BusMap.ple (a b : BusMap) : Bool :=
  a.buses.all (fun nb =>
    nb.2.enum.all (fun iv =>
      match iv.2 with
      | none => true
      | some v =>
        match b.findBus nb.1 with
        | none => false
        | some obits => obits.get? iv.1 == some (some v)))

/-- Port widths of the elaborated chip (`chip.ports` of src/test_script.rs,
a `HashMap<String, Port>`), modelled as an association list from port name
to width. -/
def Ports := List (String × Nat)

def pLookup (ports : Ports) (p : String) : Option Nat :=
  (List.find? (fun q => q.1 == p) ports).map (fun q => q.2)

/-- Modelled from the spec: the test-script instruction set consumed by
`run_test` (section 4.8); the enum lives in the test parser module, not
under src/. -/
inductive Instruction where
  | set (port : String) (value : InputValue)
  | eval
  | output
  | tick
  | tock
  deriving DecidableEq, Repr

/-- Modelled from the spec: the simulator (section 4.7) is not under src/;
it is represented abstractly by its two operations used in `run_test`:
`simulate` (settle on the given inputs, possibly updating internal state)
and `tick` (latch DFF inputs into shadows). -/
structure SimModel (σ E : Type) where
  simulate : σ → BusMap → Except E (σ × BusMap)
  tick : σ → Except E σ

/-- The mutable state of the `run_test` instruction loop
(src/test_script.rs lines 235-277). -/
structure RunSt (σ : Type) where
  sim : σ
  inputs : BusMap
  outputs : BusMap
  cmpIdx : Nat
  failures : Nat

/-- Result of running instructions: `cont` continues with the new state,
`crash` models a Rust panic (`.expect`, indexing out of bounds, `unwrap`),
`propagate` models the `?` early return of `Eval`'s simulation error. -/
inductive StepRes (σ : Type) where
  | cont (st : RunSt σ)
  | crash
  | propagate

/-- Embeds one iteration of the instruction dispatch of `run_test`
(src/test_script.rs lines 241-275). -/
def runInstr {σ E : Type} (sm : SimModel σ E) (ports : Ports)
    (expected : List BusMap) (st : RunSt σ) : Instruction → StepRes σ
  | .set port value =>
    match pLookup ports port with
    | none => .crash
    | some width =>
      match testInputToBitvec value with
      | .crash _ => .crash
      | .ok bits =>
        let boolValues := ((bitvecToVecbool bits).reverse.take width).reverse
        let inputs₁ := st.inputs.createBus port boolValues.length
        let inputs₂ := inputs₁.insertOption ⟨port, none⟩ boolValues
        .cont { st with inputs := inputs₂ }
  | .eval =>
    match sm.simulate st.sim st.inputs with
    | .error _ => .propagate
    | .ok (s', out) => .cont { st with sim := s', outputs := out }
  | .output =>
    match expected[st.cmpIdx]? with
    | none => .crash
    | some exp =>
      .cont { st with
              failures := st.failures + (if BusMap.ple exp st.outputs then 0 else 1),
              cmpIdx := st.cmpIdx + 1 }
  | .tick =>
    match sm.simulate st.sim st.inputs with
    | .error _ => .crash
    | .ok (s', out) => .cont { st with sim := s', outputs := out }
  | .tock =>
    match sm.tick st.sim with
    | .error _ => .crash
    | .ok s₁ =>
      match sm.simulate s₁ st.inputs with
      | .error _ => .crash
      | .ok (s₂, out) => .cont { st with sim := s₂, outputs := out }

/-- The inner instruction loop of one test step. -/
def runInstrs {σ E : Type} (sm : SimModel σ E) (ports : Ports)
    (expected : List BusMap) : RunSt σ → List Instruction → StepRes σ
  | st, [] => .cont st
  | st, i :: rest =>
    match runInstr sm ports expected st i with
    | .cont st' => runInstrs sm ports expected st' rest
    | .crash => .crash
    | .propagate => .propagate

/-- The outer step loop of `run_test`: each step starts with a fresh
`outputs = BusMap::new()`. -/
def runSteps {σ E : Type} (sm : SimModel σ E) (ports : Ports)
    (expected : List BusMap) : RunSt σ → List (List Instruction) → StepRes σ
  | st, [] => .cont st
  | st, step :: rest =>
    match runInstrs sm ports expected { st with outputs := BusMap.new } step with
    | .cont st' => runSteps sm ports expected st' rest
    | .crash => .crash
    | .propagate => .propagate

/-- The three outcomes of `run_test`'s driver portion: normal `Ok(())`,
a returned `Err`, or a panic. -/
inductive TestOutcome where
  | ok
  | err
  | crash
  deriving DecidableEq, Repr

def initRunSt {σ : Type} (s : σ) : RunSt σ :=
  { sim := s, inputs := BusMap.new, outputs := BusMap.new, cmpIdx := 0, failures := 0 }

/-- Embeds the driver portion of `run_test` (src/test_script.rs lines
235-295): run all steps; afterwards return `Err` when `failures > 0`, else
`Ok`.  An `Eval` simulation error is returned (`?`), hence `err`; panics
are `crash`. -/
def runTestOutcome {σ E : Type} (sm : SimModel σ E) (ports : Ports)
    (expected : List BusMap) (s₀ : σ) (steps : List (List Instruction)) : TestOutcome :=
  match runSteps sm ports expected (initRunSt s₀) steps with
  | .cont st => if 0 < st.failures then .err else .ok
  | .crash => .crash
  | .propagate => .err

/-- Modelled from the spec: an entry of the test script's `output-list`
(sections 4.8 and 6); only the number system is consulted by `read_cmp`. -/
structure OutputEntry where
  name : String
  numberSystem : NumberSystem
  width : Nat
  deriving DecidableEq, Repr

/-- Rust `str::contains('*')` — true when some character of the string is
the given character — modelled over the string's character list. -/
def strContainsChar (s : String) (c : Char) : Bool :=
  s.toList.contains c

/-- Token kinds of the HDL scanner (spec section 4.1; the scanner module is
not under src/, but `TokenType` is matched on throughout src/parser.rs). -/
inductive TokenType where
  | chipK
  | inK
  | outK
  | partsK
  | forK
  | toK
  | generateK
  | identifier
  | number
  | leftCurly
  | rightCurly
  | leftParen
  | rightParen
  | leftBracket
  | rightBracket
  | leftAngle
  | rightAngle
  | comma
  | semicolon
  | colon
  | equal
  | plus
  | minus
  | dot
  | eof
  deriving DecidableEq, Repr

/-- A scanner token with its source location, as used by src/parser.rs
(`lexeme`, `path`, `line`, `start`, `token_type`). -/
structure Token where
  tokenType : TokenType
  lexeme : String
  path : String
  line : Nat
  start : Nat
  deriving DecidableEq, Repr

/-- Modelled from the spec: the scanner (section 4.1) is not under src/;
it is modelled as the list of remaining tokens plus the scanner's current
path/line/column (read when the parser builds a synthetic EOF token). -/
structure ScSt where
  toks : List Token
  path : String
  line : Nat
  col : Nat
  deriving DecidableEq, Repr

/-- `scanner.next()`: pop the next token, `none` at end of stream. -/
def ScSt.next (st : ScSt) : Option (Token × ScSt) :=
  match st.toks with
  | [] => none
  | t :: rest => some (t, { st with toks := rest })

/-- `scanner.peek()`: one-token lookahead, `none` at end of stream. -/
def ScSt.peek (st : ScSt) : Option Token :=
  st.toks.head?

/-- The `ErrorKind` variants constructed by the embedded code. -/
inductive ErrorKind where
  | other
  | ioError
  | parseError (t : Token)
  deriving DecidableEq, Repr

/-- `N2VError { msg, kind }` from the error module. -/
structure N2VError where
  msg : String
  kind : ErrorKind
  deriving DecidableEq, Repr

/-- Result of an embedded parser function: `ok`, a returned error (`err`),
a Rust panic (`crash`, for `.unwrap()` on `None` and similar), or fuel
exhaustion of the embedding's loop counter (`noFuel`). -/
inductive PRes (α : Type) where
  | ok (a : α)
  | err (e : N2VError)
  | crash
  | noFuel
  deriving DecidableEq, Repr

/-- `Identifier` of src/parser.rs (lines 91-96). -/
structure Identifier where
  value : String
  path : Option String
  line : Option Nat
  deriving DecidableEq, Repr

/-- `From<Token> for Identifier` (src/parser.rs lines 98-110); the token
type check is performed at the one call site where the token is not already
known to be an identifier. -/
def Identifier.ofToken (t : Token) : Identifier :=
  ⟨t.lexeme, some t.path, some t.line⟩

/-- `From<&str> for Identifier` (src/parser.rs lines 112-120). -/
def Identifier.ofStr (s : String) : Identifier :=
  ⟨s, none, none⟩

/-- Modelled from the spec: `Op ∈ {Add, Sub}` of the generic expression
module (crate::expr, not under src/; spec section 3). -/
inductive Op where
  | add
  | sub
  deriving DecidableEq, Repr

/-- Modelled from the spec: a `Terminal` of a generic width expression —
a numeric literal or a generic variable (crate::expr, spec section 3). -/
inductive Terminal where
  | num (n : Nat)
  | var (v : Identifier)
  deriving DecidableEq, Repr

/-- Modelled from the spec: `GenericWidth` — a terminal or a binary
add/sub expression (crate::expr, spec section 3). -/
inductive GenericWidth where
  | terminal (t : Terminal)
  | expr (op : Op) (left right : GenericWidth)
  deriving DecidableEq, Repr

/-- `PortDirection` (src/parser.rs lines 122-126). -/
inductive PortDirection where
  | inDir
  | outDir
  deriving DecidableEq, Repr

/-- `GenericPort` (src/parser.rs lines 128-133). -/
structure GenericPort where
  name : Identifier
  width : GenericWidth
  direction : PortDirection
  deriving DecidableEq, Repr

/-- `BusHDL` (src/parser.rs lines 150-155); `end` is a Lean keyword, so the
field is called `end_`. -/
structure BusHDL where
  name : String
  start : Option GenericWidth
  end_ : Option GenericWidth
  deriving DecidableEq, Repr

/-- `PortMapping` (src/parser.rs lines 158-163). -/
structure PortMapping where
  wireIdent : Identifier
  wire : BusHDL
  port : BusHDL
  deriving DecidableEq, Repr

/-- `Component` (src/parser.rs lines 135-140). -/
structure Component where
  name : Identifier
  mappings : List PortMapping
  genericParams : List GenericWidth
  deriving DecidableEq, Repr

/-- `Loop` (src/parser.rs lines 142-148). -/
structure Loop where
  start : GenericWidth
  end_ : GenericWidth
  iterator : Identifier
  body : List Component
  deriving DecidableEq, Repr

/-- `Part` (src/parser.rs lines 14-17). -/
inductive Part where
  | component (c : Component)
  | loopPart (l : Loop)
  deriving DecidableEq, Repr

/-- `ChipHDL` (src/parser.rs lines 22-28). -/
structure ChipHDL where
  name : String
  ports : List GenericPort
  parts : List Part
  path : Option String
  genericDecls : List Identifier
  deriving DecidableEq, Repr

/-- Embeds `ChipHDL::get_port` (src/parser.rs lines 37-48): first port (in
declaration order) whose name equals the argument, else an `Other` error. -/
def ChipHDL.getPort (c : ChipHDL) (nm : String) : Except N2VError GenericPort :=
  match c.ports.find? (fun x => x.name.value == nm) with
  | some p => .ok p
  | none => .error ⟨"Attempt to get non-existent port " ++ nm, .other⟩

/-- The synthetic EOF token the parser builds from the scanner's current
position (src/parser.rs lines 241-247 and the analogous `None` arms). -/
def eofToken (st : ScSt) : Token :=
  ⟨.eof, "", st.path, st.line, st.col⟩

/-- Embeds `Parser::consume` (src/parser.rs lines 236-263). -/
def consume (tt : TokenType) (st : ScSt) : PRes (Token × ScSt) :=
  match st.next with
  | none => .err ⟨"Early end of file", .parseError (eofToken st)⟩
  | some (t, st') =>
    if t.tokenType = tt then .ok (t, st')
    else .err ⟨"I did not expect to see " ++ t.lexeme, .parseError t⟩

/-- Embeds `Parser::terminal` (src/parser.rs lines 628-641).  The source
calls `self.scanner.next().unwrap()` — a panic on early EOF — and
`lexeme.parse::<usize>().unwrap()` — a panic on a malformed number. -/
def terminalP (st : ScSt) : PRes (Terminal × ScSt) :=
  match st.next with
  | none => .crash
  | some (t, st') =>
    match t.tokenType with
    | .number =>
      match parseNat? t.lexeme with
      | some n => .ok (.num n, st')
      | none => .crash
    | .identifier => .ok (.var (Identifier.ofToken t), st')
    | _ => .err ⟨"Expected number or generic var for port width.", .parseError t⟩

/-- Embeds `Parser::expr` (src/parser.rs lines 603-626); note the
`self.scanner.peek().unwrap()` after the first terminal. -/
def exprP (st : ScSt) : PRes (GenericWidth × ScSt) :=
  match terminalP st with
  | .ok (t1, st₁) =>
    match st₁.peek with
    | none => .crash
    | some p =>
      if p.tokenType = .plus then
        match st₁.next with
        | none => .crash
        | some (_, st₂) =>
          match terminalP st₂ with
          | .ok (t2, st₃) => .ok (.expr .add (.terminal t1) (.terminal t2), st₃)
          | .err e => .err e
          | .crash => .crash
          | .noFuel => .noFuel
      else if p.tokenType = .minus then
        match st₁.next with
        | none => .crash
        | some (_, st₂) =>
          match terminalP st₂ with
          | .ok (t2, st₃) => .ok (.expr .sub (.terminal t1) (.terminal t2), st₃)
          | .err e => .err e
          | .crash => .crash
          | .noFuel => .noFuel
      else .ok (.terminal t1, st₁)
  | .err e => .err e
  | .crash => .crash
  | .noFuel => .noFuel

/-- Embeds `Parser::port_width` (src/parser.rs lines 651-662); the source
peeks with `.unwrap()` (panic at EOF) and defaults to width `1` when no
`[` follows. -/
def portWidth (st : ScSt) : PRes (GenericWidth × ScSt) :=
  match st.peek with
  | none => .crash
  | some t =>
    if t.tokenType ≠ .leftBracket then .ok (.terminal (.num 1), st)
    else
      match consume .leftBracket st with
      | .ok (_, st₁) =>
        match exprP st₁ with
        | .ok (w, st₂) =>
          match consume .rightBracket st₂ with
          | .ok (_, st₃) => .ok (w, st₃)
          | .err e => .err e
          | .crash => .crash
          | .noFuel => .noFuel
        | .err e => .err e
        | .crash => .crash
        | .noFuel => .noFuel
      | .err e => .err e
      | .crash => .crash
      | .noFuel => .noFuel

/-- Embeds `Parser::bus_idx` (src/parser.rs lines 664-692): an absent `[`
yields `(None, None)`; a single expression yields `(Some e, Some e)`
(the `else` branch clones `start` into `end`); `e1..e2` yields
`(Some e1, Some e2)`. -/
def busIdx (st : ScSt) : PRes ((Option GenericWidth × Option GenericWidth) × ScSt) :=
  match st.peek with
  | none => .crash
  | some t =>
    if t.tokenType = .leftBracket then
      match consume .leftBracket st with
      | .ok (_, st₁) =>
        match exprP st₁ with
        | .ok (start, st₂) =>
          match st₂.peek with
          | none => .crash
          | some t₂ =>
            if t₂.tokenType = .dot then
              match consume .dot st₂ with
              | .ok (_, st₃) =>
                match consume .dot st₃ with
                | .ok (_, st₄) =>
                  match exprP st₄ with
                  | .ok (endE, st₅) =>
                    match consume .rightBracket st₅ with
                    | .ok (_, st₆) => .ok ((some start, some endE), st₆)
                    | .err e => .err e
                    | .crash => .crash
                    | .noFuel => .noFuel
                  | .err e => .err e
                  | .crash => .crash
                  | .noFuel => .noFuel
                | .err e => .err e
                | .crash => .crash
                | .noFuel => .noFuel
              | .err e => .err e
              | .crash => .crash
              | .noFuel => .noFuel
            else
              match consume .rightBracket st₂ with
              | .ok (_, st₃) => .ok ((some start, some start), st₃)
              | .err e => .err e
              | .crash => .crash
              | .noFuel => .noFuel
        | .err e => .err e
        | .crash => .crash
        | .noFuel => .noFuel
      | .err e => .err e
      | .crash => .crash
      | .noFuel => .noFuel
    else .ok ((none, none), st)

/-- The loop of `Parser::generics` (src/parser.rs lines 305-369). -/
def genericsLoop : Nat → ScSt → List GenericWidth → PRes (List GenericWidth × ScSt)
  | 0, _, _ => .noFuel
  | fuel + 1, st, acc =>
    match st.next with
    | none =>
      .err ⟨"Unexpected end of file. Expected number, comma, or right angle.",
            .parseError (eofToken st)⟩
    | some (t, st') =>
      match t.tokenType with
      | .number =>
        match parseNat? t.lexeme with
        | some v => genericsLoop fuel st' (acc ++ [.terminal (.num v)])
        | none => .crash
      | .identifier =>
        genericsLoop fuel st'
          (acc ++ [.terminal (.var ⟨t.lexeme, some t.path, some t.line⟩)])
      | .comma => genericsLoop fuel st' acc
      | .rightAngle => .ok (acc, st')
      | _ =>
        .err ⟨"Expected identifier, number, comma, or right angle",
              .parseError t⟩

/-- Embeds `Parser::generics` (src/parser.rs lines 297-370); note the
`peek().unwrap()` before the `<` check. -/
def genericsP (fuel : Nat) (st : ScSt) : PRes (List GenericWidth × ScSt) :=
  match st.peek with
  | none => .crash
  | some t =>
    if t.tokenType ≠ .leftAngle then .ok ([], st)
    else
      match consume .leftAngle st with
      | .ok (_, st₁) => genericsLoop fuel st₁ []
      | .err e => .err e
      | .crash => .crash
      | .noFuel => .noFuel

/-- The loop of `Parser::generic_decls` (src/parser.rs lines 380-428). -/
def genericDeclsLoop : Nat → ScSt → List Identifier → PRes (List Identifier × ScSt)
  | 0, _, _ => .noFuel
  | fuel + 1, st, acc =>
    match st.next with
    | none =>
      .err ⟨"Unexpected end of file. Expected identifier, comma, or right angle.",
            .parseError (eofToken st)⟩
    | some (t, st') =>
      match t.tokenType with
      | .identifier =>
        genericDeclsLoop fuel st' (acc ++ [⟨t.lexeme, some t.path, some t.line⟩])
      | .comma => genericDeclsLoop fuel st' acc
      | .rightAngle => .ok (acc, st')
      | _ => .err ⟨"Expected identifier, comma, or right angle", .parseError t⟩

/-- Embeds `Parser::generic_decls` (src/parser.rs lines 372-429); note the
`peek().unwrap()` before the `<` check. -/
def genericDeclsP (fuel : Nat) (st : ScSt) : PRes (List Identifier × ScSt) :=
  match st.peek with
  | none => .crash
  | some t =>
    if t.tokenType ≠ .leftAngle then .ok ([], st)
    else
      match consume .leftAngle st with
      | .ok (_, st₁) => genericDeclsLoop fuel st₁ []
      | .err e => .err e
      | .crash => .crash
      | .noFuel => .noFuel

/-- Embeds `Parser::port_names` (src/parser.rs lines 431-484): a comma- or
semicolon-separated list of identifiers, each with an optional width
(defaulting to `1` via `port_width`). -/
def portNames (direction : PortDirection) :
    Nat → ScSt → List GenericPort → PRes (List GenericPort × ScSt)
  | 0, _, _ => .noFuel
  | fuel + 1, st, acc =>
    match st.next with
    | none =>
      .err ⟨"Unexpected end of file. Expected identifier, comma, or semicolon.",
            .parseError (eofToken st)⟩
    | some (t, st') =>
      match t.tokenType with
      | .identifier =>
        match portWidth st' with
        | .ok (w, st₂) =>
          portNames direction fuel st₂ (acc ++ [⟨Identifier.ofToken t, w, direction⟩])
        | .err e => .err e
        | .crash => .crash
        | .noFuel => .noFuel
      | .comma => portNames direction fuel st' acc
      | .semicolon => .ok (acc, st')
      | _ => .err ⟨"Expected identifier, comma, or semicolon.", .parseError t⟩

/-- The loop of `Parser::port_mappings` (src/parser.rs lines 698-770),
including the trailing `consume(Semicolon)` after the closing paren. -/
def portMappingsLoop : Nat → ScSt → List PortMapping → PRes (List PortMapping × ScSt)
  | 0, _, _ => .noFuel
  | fuel + 1, st, acc =>
    match st.next with
    | none =>
      .err ⟨"Unexpected end of file. Expected comma or right paren.",
            .parseError (eofToken st)⟩
    | some (t, st₁) =>
      match t.tokenType with
      | .identifier =>
        match busIdx st₁ with
        | .ok ((portStart, portEnd), st₂) =>
          match consume .equal st₂ with
          | .ok (_, st₃) =>
            match consume .identifier st₃ with
            | .ok (wire, st₄) =>
              match busIdx st₄ with
              | .ok ((wireStart, wireEnd), st₅) =>
                let acc' := acc ++
                  [⟨Identifier.ofToken t,
                    ⟨wire.lexeme, wireStart, wireEnd⟩,
                    ⟨t.lexeme, portStart, portEnd⟩⟩]
                match st₅.peek with
                | none => .crash
                | some pk =>
                  match pk.tokenType with
                  | .comma => portMappingsLoop fuel st₅ acc'
                  | .rightParen => portMappingsLoop fuel st₅ acc'
                  | _ =>
                    .err ⟨"Expected comma or right paren, found " ++ pk.lexeme,
                          .parseError pk⟩
              | .err e => .err e
              | .crash => .crash
              | .noFuel => .noFuel
            | .err e => .err e
            | .crash => .crash
            | .noFuel => .noFuel
          | .err e => .err e
          | .crash => .crash
          | .noFuel => .noFuel
        | .err e => .err e
        | .crash => .crash
        | .noFuel => .noFuel
      | .comma => portMappingsLoop fuel st₁ acc
      | .rightParen =>
        match consume .semicolon st₁ with
        | .ok (_, st₂) => .ok (acc, st₂)
        | .err e => .err e
        | .crash => .crash
        | .noFuel => .noFuel
      | _ => .err ⟨"Expected comma, or right paren", .parseError t⟩

/-- Embeds `Parser::port_mappings` (src/parser.rs lines 694-775). -/
def portMappingsP (fuel : Nat) (st : ScSt) : PRes (List PortMapping × ScSt) :=
  match consume .leftParen st with
  | .ok (_, st₁) => portMappingsLoop fuel st₁ []
  | .err e => .err e
  | .crash => .crash
  | .noFuel => .noFuel

/-- Embeds `Parser::component` (src/parser.rs lines 643-649).  The source
calls `Identifier::from(self.scanner.next().unwrap())`: a panic when the
stream is empty or the token is not an identifier. -/
def componentP (fuel : Nat) (st : ScSt) : PRes (Component × ScSt) :=
  match st.next with
  | none => .crash
  | some (t, st') =>
    if t.tokenType = .identifier then
      match genericsP fuel st' with
      | .ok (gps, st₂) =>
        match portMappingsP fuel st₂ with
        | .ok (ms, st₃) => .ok (⟨Identifier.ofToken t, ms, gps⟩, st₃)
        | .err e => .err e
        | .crash => .crash
        | .noFuel => .noFuel
      | .err e => .err e
      | .crash => .crash
      | .noFuel => .noFuel
    else .crash

/-- The loop of `Parser::components` (src/parser.rs lines 539-582). -/
def componentsLoop : Nat → ScSt → List Component → PRes (List Component × ScSt)
  | 0, _, _ => .noFuel
  | fuel + 1, st, acc =>
    match st.peek with
    | none =>
      .err ⟨"Unexpected end of file. Expected identifier or right curly.",
            .parseError (eofToken st)⟩
    | some t =>
      match t.tokenType with
      | .identifier =>
        match componentP fuel st with
        | .ok (c, st') => componentsLoop fuel st' (acc ++ [c])
        | .err e => .err e
        | .crash => .crash
        | .noFuel => .noFuel
      | .rightCurly =>
        match st.next with
        | some (_, st') => .ok (acc, st')
        | none => .crash
      | _ => .err ⟨"Expected Identifier or right curly.", .parseError t⟩

/-- Embeds `Parser::for_loop` (src/parser.rs lines 584-601). -/
def forLoopP (fuel : Nat) (st : ScSt) : PRes (Loop × ScSt) :=
  match consume .forK st with
  | .ok (_, st₁) =>
    match consume .identifier st₁ with
    | .ok (iter, st₂) =>
      match consume .inK st₂ with
      | .ok (_, st₃) =>
        match exprP st₃ with
        | .ok (startE, st₄) =>
          match consume .toK st₄ with
          | .ok (_, st₅) =>
            match exprP st₅ with
            | .ok (endE, st₆) =>
              match consume .generateK st₆ with
              | .ok (_, st₇) =>
                match consume .leftCurly st₇ with
                | .ok (_, st₈) =>
                  match componentsLoop fuel st₈ [] with
                  | .ok (body, st₉) =>
                    .ok (⟨startE, endE, Identifier.ofToken iter, body⟩, st₉)
                  | .err e => .err e
                  | .crash => .crash
                  | .noFuel => .noFuel
                | .err e => .err e
                | .crash => .crash
                | .noFuel => .noFuel
              | .err e => .err e
              | .crash => .crash
              | .noFuel => .noFuel
            | .err e => .err e
            | .crash => .crash
            | .noFuel => .noFuel
          | .err e => .err e
          | .crash => .crash
          | .noFuel => .noFuel
        | .err e => .err e
        | .crash => .crash
        | .noFuel => .noFuel
      | .err e => .err e
      | .crash => .crash
      | .noFuel => .noFuel
    | .err e => .err e
    | .crash => .crash
    | .noFuel => .noFuel
  | .err e => .err e
  | .crash => .crash
  | .noFuel => .noFuel

/-- The loop of `Parser::parts` (src/parser.rs lines 487-536). -/
def partsLoop : Nat → ScSt → List Part → PRes (List Part × ScSt)
  | 0, _, _ => .noFuel
  | fuel + 1, st, acc =>
    match st.peek with
    | none =>
      .err ⟨"Unexpected end of file. Expected identifier, FOR, or right curly.",
            .parseError (eofToken st)⟩
    | some t =>
      match t.tokenType with
      | .identifier =>
        match componentP fuel st with
        | .ok (c, st') => partsLoop fuel st' (acc ++ [.component c])
        | .err e => .err e
        | .crash => .crash
        | .noFuel => .noFuel
      | .forK =>
        match forLoopP fuel st with
        | .ok (l, st') => partsLoop fuel st' (acc ++ [.loopPart l])
        | .err e => .err e
        | .crash => .crash
        | .noFuel => .noFuel
      | .rightCurly =>
        match st.next with
        | some (_, st') => .ok (acc, st')
        | none => .crash
      | _ => .err ⟨"Expected identifier, FOR, or right curly.", .parseError t⟩

/-- Embeds `Parser::chip` (src/parser.rs lines 265-295). -/
def chipP (fuel : Nat) (st : ScSt) : PRes (ChipHDL × ScSt) :=
  match consume .chipK st with
  | .ok (_, st₁) =>
    match consume .identifier st₁ with
    | .ok (chipName, st₂) =>
      match genericDeclsP fuel st₂ with
      | .ok (generics, st₃) =>
        match consume .leftCurly st₃ with
        | .ok (_, st₄) =>
          match consume .inK st₄ with
          | .ok (_, st₅) =>
            match portNames .inDir fuel st₅ [] with
            | .ok (portsIn, st₆) =>
              match consume .outK st₆ with
              | .ok (_, st₇) =>
                match portNames .outDir fuel st₇ [] with
                | .ok (portsOut, st₈) =>
                  match consume .partsK st₈ with
                  | .ok (_, st₉) =>
                    match consume .colon st₉ with
                    | .ok (_, st₁₀) =>
                      match partsLoop fuel st₁₀ [] with
                      | .ok (parts, st₁₁) =>
                        .ok (⟨(Identifier.ofToken chipName).value,
                              portsIn ++ portsOut, parts,
                              some st₁₁.path, generics⟩, st₁₁)
                      | .err e => .err e
                      | .crash => .crash
                      | .noFuel => .noFuel
                    | .err e => .err e
                    | .crash => .crash
                    | .noFuel => .noFuel
                  | .err e => .err e
                  | .crash => .crash
                  | .noFuel => .noFuel
                | .err e => .err e
                | .crash => .crash
                | .noFuel => .noFuel
              | .err e => .err e
              | .crash => .crash
              | .noFuel => .noFuel
            | .err e => .err e
            | .crash => .crash
            | .noFuel => .noFuel
          | .err e => .err e
          | .crash => .crash
          | .noFuel => .noFuel
        | .err e => .err e
        | .crash => .crash
        | .noFuel => .noFuel
      | .err e => .err e
      | .crash => .crash
      | .noFuel => .noFuel
    | .err e => .err e
    | .crash => .crash
    | .noFuel => .noFuel
  | .err e => .err e
  | .crash => .crash
  | .noFuel => .noFuel

/-- Embeds `Parser::parse` (src/parser.rs lines 232-234). -/
def parseP (fuel : Nat) (st : ScSt) : PRes (ChipHDL × ScSt) :=
  chipP fuel st

/-- The hard-coded NAND chip built by `get_hdl` (src/parser.rs lines
169-193). -/
def nandChip : ChipHDL :=
  { name := "NAND",
    ports := [⟨Identifier.ofStr "a", .terminal (.num 1), .inDir⟩,
              ⟨Identifier.ofStr "b", .terminal (.num 1), .inDir⟩,
              ⟨Identifier.ofStr "out", .terminal (.num 1), .outDir⟩],
    parts := [],
    path := none,
    genericDecls := [] }

/-- The hard-coded DFF chip built by `get_hdl` (src/parser.rs lines
194-213). -/
def dffChip : ChipHDL :=
  { name := "DFF",
    ports := [⟨Identifier.ofStr "in", .terminal (.num 1), .inDir⟩,
              ⟨Identifier.ofStr "out", .terminal (.num 1), .outDir⟩],
    parts := [],
    path := none,
    genericDecls := [] }

/-- Rust `str::to_lowercase` modelled over the character list (only ASCII
names are relevant here). -/
def strToLower (s : String) : String :=
  ⟨s.toList.map Char.toLower⟩

/-- Embeds `get_hdl` (src/parser.rs lines 168-225).  The HDL provider and
the scanner construction are external collaborators (the scanner module is
not under src/), so they are passed as functions: `provider` maps the file
name to its contents (or an error) and `scan` turns contents into a token
stream. -/
def getHdl (fuel : Nat) (name : String)
    (provider : String → Except N2VError String) (scan : String → ScSt) :
    PRes ChipHDL :=
  if strToLower name = "nand" then .ok nandChip
  else if strToLower name = "dff" then .ok dffChip
  else
    match provider (name ++ ".hdl") with
    | .error e => .err e
    | .ok contents =>
      match parseP fuel (scan contents) with
      | .ok (c, _) => .ok c
      | .err e => .err e
      | .crash => .crash
      | .noFuel => .noFuel

/-- Embeds the per-cell loop of `read_cmp` (src/test_script.rs lines
107-162): cell `i` of a data row is skipped when the output-list declares
number system `S` (String) or when the cell contains a `*`; otherwise its
bits are fitted to the port's width and inserted into the row's `BusMap`. -/
def processCells (ol : List OutputEntry) (portOrder : List String)
    (ports : Ports) : Nat → List String → BusMap → PRes BusMap
  | _, [], bm => .ok bm
  | i, v :: rest, bm =>
    match ol[i]? with
    | none =>
      .err ⟨"The line contains more columns than the test script output-list.",
            .other⟩
    | some entry =>
      if entry.numberSystem = .string then processCells ol portOrder ports (i + 1) rest bm
      else if strContainsChar v '*' then processCells ol portOrder ports (i + 1) rest bm
      else
        match testInputToBitvec ⟨entry.numberSystem, v⟩ with
        | .crash _ => .crash
        | .ok bits =>
          let value := (bitvecToVecbool bits).reverse
          match portOrder[i]? with
          | none =>
            .err ⟨"The line contains more columns than the header line.", .other⟩
          | some pname =>
            match pLookup ports pname with
            | none => .err ⟨"CMP / HDL mismatch.", .other⟩
            | some w =>
              let value₂ := (value.take w).reverse
              let bm₁ := bm.createBus pname value₂.length
              let bm₂ := bm₁.insertOption ⟨pname, some (0, value₂.length)⟩ value₂
              processCells ol portOrder ports (i + 1) rest bm₂

/-- A token at a fixed concrete location, for concrete evaluations. -/
def tk (tt : TokenType) (lx : String) : Token :=
  ⟨tt, lx, "t.hdl", 1, 0⟩

/-- A trivial concrete simulator: settle returns the inputs unchanged and
the clock operation is the identity. -/
def simUnit : SimModel Unit Unit :=
  ⟨fun s bm => .ok (s, bm), fun s => .ok s⟩

/-- A concrete HDL provider that fails every lookup. -/
def provFail : String → Except N2VError String :=
  fun _ => .error ⟨"no such file", .ioError⟩

/-- A concrete HDL provider that returns empty contents. -/
def provEmpty : String → Except N2VError String :=
  fun _ => .ok ""

/-- A concrete scanner stub producing an empty token stream. -/
def scanEmpty : String → ScSt :=
  fun _ => ⟨[], "", 0, 0⟩

/-- A second concrete scanner stub. -/
def scanEmpty2 : String → ScSt :=
  fun _ => ⟨[], "x.hdl", 1, 1⟩

/-- The literal bits actually stored by a `Set` instruction: the literal's
bits with MSB-side truncation to width `w` and no extension (keep the
`min w length` least significant bits). -/
def specFit (w : Nat) (bits : List Bool) : List (Option Bool) :=
  (bits.drop (bits.length - w)).map some

/-- The inputs BusMap after a `Set` stores the fitted literal `specFit w
bits` under `port` (create the bus at the stored length, then write it). -/
def setStoredInputs (bm : BusMap) (port : String) (w : Nat) (bits : List Bool) : BusMap :=
  (bm.createBus port (specFit w bits).length).insertOption ⟨port, none⟩ (specFit w bits)

theorem peek_some_next (st : ScSt) (t : Token) (h : st.peek = some t) :
    st.next = some (t, { st with toks := st.toks.tail }) := by
  cases st with
  | mk toks p l c =>
    cases toks with
    | nil => simp [ScSt.peek] at h
    | cons a r =>
      simp [ScSt.peek] at h
      subst h
      simp [ScSt.next]

theorem find?_some_first {α : Type} (p : α → Bool) :
    ∀ (l : List α) (x : α), l.find? p = some x →
      p x = true ∧ ∃ i, ∃ h : i < l.length, l.get ⟨i, h⟩ = x ∧
        ∀ y ∈ l.take i, p y = false := by
  intro l
  induction l with
  | nil => intro x hx; simp at hx
  | cons a t ih =>
    intro x hx
    by_cases hpa : p a
    · rw [List.find?_cons_of_pos _ hpa] at hx
      obtain rfl : a = x := by simpa using hx
      exact ⟨hpa, 0, by simp, rfl, by simp⟩
    · rw [List.find?_cons_of_neg _ (by simpa using hpa)] at hx
      obtain ⟨hpx, i, hi, hget, htake⟩ := ih x hx
      refine ⟨hpx, i + 1, by simpa using Nat.succ_lt_succ hi, by simpa using hget, ?_⟩
      intro y hy
      rw [List.take_succ_cons] at hy
      rcases List.mem_cons.mp hy with rfl | hy'
      · simpa using hpa
      · exact htake y hy'

theorem contains_of_all_star (l : List Char) (hne : l ≠ [])
    (hall : l.all (fun c => c = '*') = true) : l.contains '*' = true := by
  cases l with
  | nil => exact absurd rfl hne
  | cons c r =>
    simp only [List.all_cons, Bool.and_eq_true, decide_eq_true_eq] at hall
    obtain ⟨hc, _⟩ := hall
    subst hc
    simp [List.contains_cons]

theorem binBits?_length :
    ∀ (cs : List Char) (bs : List Bool), binBits? cs = some bs → bs.length = cs.length := by
  intro cs
  induction cs with
  | nil => intro bs h; simp [binBits?] at h; simp [← h]
  | cons c r ih =>
    intro bs h
    unfold binBits? at h
    split at h
    · cases hr : binBits? r with
      | none => rw [hr] at h; simp at h
      | some bs' =>
        rw [hr] at h
        simp at h
        rw [← h]
        simpa using ih bs' hr
    · cases hr : binBits? r with
      | none => rw [hr] at h; simp at h
      | some bs' =>
        rw [hr] at h
        simp at h
        rw [← h]
        simpa using ih bs' hr
    · exact absurd h (by simp)

theorem take_reverse_fit (w : Nat) (bits : List Bool) :
    ((bits.map some).reverse.take w).reverse = specFit w bits := by
  rw [← List.rtake_eq_reverse_take_reverse, List.rtake, specFit, List.length_map,
    ← List.map_drop]

/-- C4: converting a test-script literal whose number system is Hex or
String does not return an `Unsupported` error value — for every literal
text it panics (the source's `panic!("hex/string number system not
supported yet.")`), modelled by the `crash` result. -/
theorem hex_string_literals_panic (v : String) :
    testInputToBitvec ⟨.hex, v⟩ = .crash "hex number system not supported yet." ∧
    testInputToBitvec ⟨.string, v⟩ = .crash "string number system not supported yet." :=
  ⟨rfl, rfl⟩

/-- C3: the parser does not return a synthetic-EOF ParseError on every
early end of file — on the stream `CHIP Foo { IN a [` (ending before the
width expression) `Parser::parse` panics: `Parser::terminal` calls
`self.scanner.next().unwrap()` on an exhausted scanner.  The crash result
of the embedding models that panic. -/
theorem parse_panics_on_early_eof :
    parseP 99 ⟨[tk .chipK "CHIP", tk .identifier "Foo", tk .leftCurly "\x7b",
      tk .inK "IN", tk .identifier "a", tk .leftBracket "["],
      "Foo.hdl", 3, 10⟩ = .crash := by
  decide

/-- C5: a chip name whose lowercase form is "nand" or "dff" resolves in
`get_hdl` without consulting the file provider (the result is independent
of both the provider and the scanner) to the synthetic ChipHDL with no
parts, no generic declarations, and exactly the hard-coded ports:
NAND = a[1] in, b[1] in, out[1] out; DFF = in[1] in, out[1] out. -/
theorem getHdl_builtin (fuel : Nat) (name : String)
    (p₁ p₂ : String → Except N2VError String) (s₁ s₂ : String → ScSt)
    (h : strToLower name = "nand" ∨ strToLower name = "dff") :
    getHdl fuel name p₁ s₁ = getHdl fuel name p₂ s₂ ∧
    getHdl fuel name p₁ s₁ = .ok (if strToLower name = "nand" then
      { name := "NAND",
        ports := [⟨⟨"a", none, none⟩, .terminal (.num 1), .inDir⟩,
                  ⟨⟨"b", none, none⟩, .terminal (.num 1), .inDir⟩,
                  ⟨⟨"out", none, none⟩, .terminal (.num 1), .outDir⟩],
        parts := [], path := none, genericDecls := [] }
    else
      { name := "DFF",
        ports := [⟨⟨"in", none, none⟩, .terminal (.num 1), .inDir⟩,
                  ⟨⟨"out", none, none⟩, .terminal (.num 1), .outDir⟩],
        parts := [], path := none, genericDecls := [] }) := by
  rcases h with h | h
  · constructor <;> simp [getHdl, h, nandChip, Identifier.ofStr]
  · have hne : strToLower name ≠ "nand" := by rw [h]; decide
    constructor <;> simp [getHdl, h, hne, dffChip, Identifier.ofStr]

theorem getHdl_builtin_witness :
    getHdl 3 "NAnd" provFail scanEmpty = getHdl 3 "NAnd" provEmpty scanEmpty2 ∧
    getHdl 3 "NAnd" provFail scanEmpty = .ok (if strToLower "NAnd" = "nand" then
      { name := "NAND",
        ports := [⟨⟨"a", none, none⟩, .terminal (.num 1), .inDir⟩,
                  ⟨⟨"b", none, none⟩, .terminal (.num 1), .inDir⟩,
                  ⟨⟨"out", none, none⟩, .terminal (.num 1), .outDir⟩],
        parts := [], path := none, genericDecls := [] }
    else
      { name := "DFF",
        ports := [⟨⟨"in", none, none⟩, .terminal (.num 1), .inDir⟩,
                  ⟨⟨"out", none, none⟩, .terminal (.num 1), .outDir⟩],
        parts := [], path := none, genericDecls := [] }) :=
  getHdl_builtin 3 "NAnd" provFail provEmpty scanEmpty scanEmpty2 (Or.inl rfl)

/-- C10: `ChipHDL::get_port` returns Ok with the first declared port (in
declaration order over the ports list, which `Parser::chip` builds as IN
ports followed by OUT ports) whose name equals the argument exactly, and
returns an error of kind Other if and only if no port has that name.  The
embedded function is pure, so the ChipHDL is never modified. -/
theorem getPort_first_match (c : ChipHDL) (nm : String) :
    (∀ p, c.getPort nm = Except.ok p →
        p.name.value = nm ∧ ∃ i, ∃ h : i < c.ports.length,
          c.ports.get ⟨i, h⟩ = p ∧ ∀ q ∈ c.ports.take i, q.name.value ≠ nm) ∧
    ((∃ e, c.getPort nm = Except.error e ∧ e.kind = ErrorKind.other) ↔
        ∀ q ∈ c.ports, q.name.value ≠ nm) := by
  constructor
  · intro p hp
    unfold ChipHDL.getPort at hp
    cases hf : c.ports.find? (fun x => x.name.value == nm) with
    | none => rw [hf] at hp; exact absurd hp (by simp)
    | some q =>
      rw [hf] at hp
      obtain rfl : q = p := by simpa using hp
      obtain ⟨hpq, i, hi, hget, htake⟩ := find?_some_first _ c.ports q hf
      refine ⟨by simpa using hpq, i, hi, hget, ?_⟩
      intro y hy hcontra
      have := htake y hy
      simp [hcontra] at this
  · constructor
    · rintro ⟨e, he, _⟩ q hq hcontra
      unfold ChipHDL.getPort at he
      cases hf : c.ports.find? (fun x => x.name.value == nm) with
      | none =>
        have := List.find?_eq_none.mp hf q hq
        simp [hcontra] at this
      | some p => rw [hf] at he; exact absurd he (by simp)
    · intro hall
      have hf : c.ports.find? (fun x => x.name.value == nm) = none :=
        List.find?_eq_none.mpr (fun x hx => by simpa using hall x hx)
      refine ⟨⟨"Attempt to get non-existent port " ++ nm, .other⟩, ?_, rfl⟩
      unfold ChipHDL.getPort
      rw [hf]

theorem getPort_first_match_witness :
    nandChip.getPort "b" = Except.ok ⟨⟨"b", none, none⟩, .terminal (.num 1), .inDir⟩ ∧
    ((⟨⟨"b", none, none⟩, .terminal (.num 1), .inDir⟩ : GenericPort).name.value = "b") :=
  ⟨rfl, ((getPort_first_match nandChip "b").1 _ rfl).1⟩

theorem portWidth_no_bracket (st : ScSt) (t : Token) (hpk : st.peek = some t)
    (hne : t.tokenType ≠ .leftBracket) :
    portWidth st = .ok (.terminal (.num 1), st) := by
  simp [portWidth, hpk, hne]

/-- C9: a port declared without an explicit bracketed width is parsed with
width exactly the numeric terminal 1: `port_width` returns `Num 1` without
consuming anything when the next token is not `[`, and the `port_names`
loop then appends the port with exactly that width. -/
theorem port_width_defaults_to_one :
    (∀ (st : ScSt) (t : Token), st.peek = some t → t.tokenType ≠ .leftBracket →
        portWidth st = .ok (.terminal (.num 1), st)) ∧
    (∀ (direction : PortDirection) (fuel : Nat) (st : ScSt) (t u : Token)
        (acc : List GenericPort),
        st.peek = some t → t.tokenType = .identifier →
        ScSt.peek { st with toks := st.toks.tail } = some u →
        u.tokenType ≠ .leftBracket →
        portNames direction (fuel + 1) st acc =
          portNames direction fuel { st with toks := st.toks.tail }
            (acc ++ [⟨Identifier.ofToken t, .terminal (.num 1), direction⟩])) := by
  refine ⟨portWidth_no_bracket, ?_⟩
  intro direction fuel st t u acc hpk hid hpk' hne
  have hnx := peek_some_next st t hpk
  have hw := portWidth_no_bracket _ u hpk' hne
  simp [portNames, hnx, hid, hw]

theorem port_width_defaults_to_one_witness :
    portWidth ⟨[tk .semicolon ";"], "t.hdl", 1, 0⟩ =
      .ok (.terminal (.num 1), ⟨[tk .semicolon ";"], "t.hdl", 1, 0⟩) ∧
    portNames .inDir 4 ⟨[tk .identifier "a", tk .semicolon ";"], "t.hdl", 1, 0⟩ [] =
      portNames .inDir 3 ⟨[tk .semicolon ";"], "t.hdl", 1, 0⟩
        [⟨Identifier.ofToken (tk .identifier "a"), .terminal (.num 1), .inDir⟩] :=
  ⟨(port_width_defaults_to_one).1 _ (tk .semicolon ";") rfl (by decide),
   (port_width_defaults_to_one).2 .inDir 3 _ (tk .identifier "a") (tk .semicolon ";") []
     rfl rfl rfl (by decide)⟩

/-- C8: a bus index of the form `[expr]` with no `..` denotes a single bit:
`bus_idx` returns a slice whose start and end are both present and equal to
the parsed expression; and `port_mappings` uses `bus_idx` on both the port
side and the wire side, as the concrete mapping `(a[2]=b[3]);` shows. -/
theorem busIdx_single_bit (st st₁ : ScSt) (t t' : Token) (w : GenericWidth)
    (hpk : st.peek = some t) (hlb : t.tokenType = .leftBracket)
    (hex : exprP { st with toks := st.toks.tail } = .ok (w, st₁))
    (hpk' : st₁.peek = some t') (hrb : t'.tokenType = .rightBracket) :
    busIdx st = .ok ((some w, some w), { st₁ with toks := st₁.toks.tail }) ∧
    portMappingsP 9 ⟨[tk .leftParen "(", tk .identifier "a", tk .leftBracket "[",
      tk .number "2", tk .rightBracket "]", tk .equal "=", tk .identifier "b",
      tk .leftBracket "[", tk .number "3", tk .rightBracket "]", tk .rightParen ")",
      tk .semicolon ";"], "t.hdl", 1, 0⟩ =
      .ok ([⟨Identifier.ofToken (tk .identifier "a"),
            ⟨"b", some (.terminal (.num 3)), some (.terminal (.num 3))⟩,
            ⟨"a", some (.terminal (.num 2)), some (.terminal (.num 2))⟩⟩],
          ⟨[], "t.hdl", 1, 0⟩) := by
  constructor
  · have hnx := peek_some_next st t hpk
    have hnx' := peek_some_next st₁ t' hpk'
    have hnd : ¬ (t'.tokenType = .dot) := by rw [hrb]; intro hc; cases hc
    simp [busIdx, consume, hpk, hnx, hnx', hlb, hex, hpk', hnd, hrb]
  · decide

theorem busIdx_single_bit_witness :
    busIdx ⟨[tk .leftBracket "[", tk .number "5", tk .rightBracket "]"],
        "w.hdl", 2, 4⟩ =
      .ok ((some (.terminal (.num 5)), some (.terminal (.num 5))),
           ⟨[], "w.hdl", 2, 4⟩) ∧
    portMappingsP 9 ⟨[tk .leftParen "(", tk .identifier "a", tk .leftBracket "[",
      tk .number "2", tk .rightBracket "]", tk .equal "=", tk .identifier "b",
      tk .leftBracket "[", tk .number "3", tk .rightBracket "]", tk .rightParen ")",
      tk .semicolon ";"], "t.hdl", 1, 0⟩ =
      .ok ([⟨Identifier.ofToken (tk .identifier "a"),
            ⟨"b", some (.terminal (.num 3)), some (.terminal (.num 3))⟩,
            ⟨"a", some (.terminal (.num 2)), some (.terminal (.num 2))⟩⟩],
          ⟨[], "t.hdl", 1, 0⟩) :=
  busIdx_single_bit
    ⟨[tk .leftBracket "[", tk .number "5", tk .rightBracket "]"], "w.hdl", 2, 4⟩
    ⟨[tk .rightBracket "]"], "w.hdl", 2, 4⟩
    (tk .leftBracket "[") (tk .rightBracket "]") (.terminal (.num 5))
    rfl rfl (by decide) rfl rfl

/-- C6: in the expected-row construction of `read_cmp`, a cell made of `*`
characters and every cell of a column whose output-list entry declares
number system S (String) contribute no expected bits: processing such a
cell is the same as skipping straight to the next cell, leaving the row's
BusMap untouched. -/
theorem cmp_wildcard_and_string_skip (ol : List OutputEntry) (po : List String)
    (ports : Ports) (i : Nat) (v : String) (rest : List String) (bm : BusMap)
    (entry : OutputEntry) (hol : ol[i]? = some entry)
    (h : entry.numberSystem = .string ∨
         (v.toList ≠ [] ∧ v.toList.all (fun c => c = '*') = true)) :
    processCells ol po ports i (v :: rest) bm =
      processCells ol po ports (i + 1) rest bm := by
  rcases h with h | ⟨hne, hall⟩
  · simp [processCells, hol, h]
  · have hsc : strContainsChar v '*' = true := by
      unfold strContainsChar
      exact contains_of_all_star v.toList hne hall
    by_cases hs : entry.numberSystem = .string
    · simp [processCells, hol, hs]
    · simp [processCells, hol, hs, hsc]

theorem cmp_wildcard_and_string_skip_witness :
    processCells [⟨"x", .binary, 1⟩] ["x"] [("x", 1)] 0 ["**"] BusMap.new =
      processCells [⟨"x", .binary, 1⟩] ["x"] [("x", 1)] 1 [] BusMap.new ∧
    processCells [⟨"y", .string, 1⟩] ["y"] [("y", 1)] 0 ["ok"] BusMap.new =
      processCells [⟨"y", .string, 1⟩] ["y"] [("y", 1)] 1 [] BusMap.new :=
  ⟨cmp_wildcard_and_string_skip [⟨"x", .binary, 1⟩] ["x"] [("x", 1)] 0 "**" []
      BusMap.new ⟨"x", .binary, 1⟩ rfl (Or.inr ⟨by decide, by decide⟩),
   cmp_wildcard_and_string_skip [⟨"y", .string, 1⟩] ["y"] [("y", 1)] 0 "ok" []
      BusMap.new ⟨"y", .string, 1⟩ rfl (Or.inl rfl)⟩

/-- C7: in the driver, a `Tick` instruction invokes only the combinational
settle (`simulate`) on the current inputs, storing the result in
`outputs` — its behaviour is independent of the simulator's clock
operation — while `Tock` first advances the clock (the simulator's `tick`)
and then settles (the settle runs on the post-tick state); nothing else of
the run state changes. -/
theorem tick_tock_simulator_ops {σ E : Type} (sm : SimModel σ E) (ports : Ports)
    (expected : List BusMap) (st : RunSt σ) :
    (∀ s' out, sm.simulate st.sim st.inputs = .ok (s', out) →
        runInstr sm ports expected st .tick =
          .cont { st with sim := s', outputs := out }) ∧
    (∀ sm₂ : SimModel σ E, sm₂.simulate = sm.simulate →
        runInstr sm₂ ports expected st .tick = runInstr sm ports expected st .tick) ∧
    (∀ s₁ s₂ out, sm.tick st.sim = .ok s₁ →
        sm.simulate s₁ st.inputs = .ok (s₂, out) →
        runInstr sm ports expected st .tock =
          .cont { st with sim := s₂, outputs := out }) := by
  refine ⟨?_, ?_, ?_⟩
  · intro s' out h
    simp [runInstr, h]
  · intro sm₂ h
    simp [runInstr, h]
  · intro s₁ s₂ out h₁ h₂
    simp [runInstr, h₁, h₂]

theorem tick_tock_simulator_ops_witness :
    runInstr simUnit [] [] (initRunSt ()) .tick =
      .cont { initRunSt () with sim := (), outputs := BusMap.new } ∧
    runInstr simUnit [] [] (initRunSt ()) .tock =
      .cont { initRunSt () with sim := (), outputs := BusMap.new } :=
  ⟨(tick_tock_simulator_ops simUnit [] [] (initRunSt ())).1 () BusMap.new rfl,
   (tick_tock_simulator_ops simUnit [] [] (initRunSt ())).2.2 () () BusMap.new rfl rfl⟩

/-- C2 (amended): a `Set(port, literal)` stores the literal's bits with
MSB-side truncation to the port's declared width but without any
extension: the stored bus holds the `min(width, literal length)` least
significant bits (decimal literals always convert to 16 bits of
two's-complement, binary literals to exactly one bit per character), so a
literal narrower than the port leaves a bus narrower than the port. -/
theorem set_literal_fitting {σ E : Type} (sm : SimModel σ E) (ports : Ports)
    (expected : List BusMap) (st : RunSt σ) (port : String) (v : InputValue)
    (w : Nat) (bits : List Bool)
    (hw : pLookup ports port = some w)
    (hb : testInputToBitvec v = .ok bits) :
    runInstr sm ports expected st (.set port v) =
      .cont { st with inputs := setStoredInputs st.inputs port w bits } ∧
    (specFit w bits).length = min w bits.length ∧
    (v.numberSystem = .decimal → bits.length = 16) ∧
    (v.numberSystem = .binary → bits.length = v.value.toList.length) := by
  refine ⟨?_, ?_, ?_, ?_⟩
  · simp only [runInstr, hw, hb, bitvecToVecbool, setStoredInputs, take_reverse_fit]
  · simp [specFit]
    omega
  · intro hd
    unfold testInputToBitvec at hb
    rw [hd] at hb
    cases hp : parseI16? v.value with
    | none => rw [hp] at hb; exact absurd hb (by simp)
    | some n =>
      rw [hp] at hb
      obtain rfl : i16ToBitsMsb n = bits := by simpa using hb
      simp [i16ToBitsMsb]
  · intro hd
    unfold testInputToBitvec at hb
    rw [hd] at hb
    cases hp : binBits? v.value.toList with
    | none => rw [hp] at hb; exact absurd hb (by simp)
    | some bs =>
      rw [hp] at hb
      obtain rfl : bs = bits := by simpa using hb
      exact binBits?_length _ _ hp

theorem set_literal_fitting_witness :
    runInstr simUnit [("a", 2)] [] (initRunSt ()) (.set "a" ⟨.binary, "1"⟩) =
      .cont { initRunSt () with
              inputs := setStoredInputs (initRunSt () : RunSt Unit).inputs "a" 2 [true] } ∧
    (specFit 2 [true]).length = min 2 [true].length ∧
    ((⟨.binary, "1"⟩ : InputValue).numberSystem = .decimal → [true].length = 16) ∧
    ((⟨.binary, "1"⟩ : InputValue).numberSystem = .binary →
        [true].length = ("1" : String).toList.length) :=
  set_literal_fitting simUnit [("a", 2)] [] (initRunSt ()) "a" ⟨.binary, "1"⟩ 2 [true]
    rfl rfl

/-- C2 (counterexample): setting a width-2 port from the binary literal
`1` stores a one-bit bus, not a two-bit bus — the literal is not extended
to the port's declared width. -/
theorem set_binary_literal_not_extended :
    runInstr simUnit [("a", 2)] [] (initRunSt ()) (.set "a" ⟨.binary, "1"⟩) =
      .cont { initRunSt () with inputs := ⟨[("a", [some true])]⟩ } ∧
    BusMap.findBus ⟨[("a", [some true])]⟩ "a" = some [some true] ∧
    ¬ (([some true] : List (Option Bool)).length = 2) :=
  ⟨rfl, rfl, by decide⟩

/-- C1: with every non-Output instruction succeeding, `run_test` returns an
error if and only if at least one Output comparison failed: the final
result is Err exactly when the failure counter is positive; an Output
instruction increments the counter by one exactly when the expected row is
not `partial_le` the current outputs (and advances the row index); and no
other instruction ever changes the counter. -/
theorem run_test_error_iff_mismatch {σ E : Type} (sm : SimModel σ E) (ports : Ports)
    (expected : List BusMap) (s₀ : σ) (steps : List (List Instruction)) :
    (∀ st, runSteps sm ports expected (initRunSt s₀) steps = .cont st →
        (runTestOutcome sm ports expected s₀ steps = .err ↔ 0 < st.failures)) ∧
    (∀ (st : RunSt σ) (exp : BusMap), expected[st.cmpIdx]? = some exp →
        runInstr sm ports expected st .output =
          .cont { st with
                  failures := st.failures + (if BusMap.ple exp st.outputs then 0 else 1),
                  cmpIdx := st.cmpIdx + 1 }) ∧
    (∀ (st st' : RunSt σ) (instr : Instruction), instr ≠ .output →
        runInstr sm ports expected st instr = .cont st' →
        st'.failures = st.failures) := by
  refine ⟨?_, ?_, ?_⟩
  · intro st h
    unfold runTestOutcome
    rw [h]
    by_cases hf : 0 < st.failures
    · simp [hf]
    · simp [hf]
  · intro st exp h
    simp [runInstr, h]
  · intro st st' instr hne h
    cases instr with
    | output => exact absurd rfl hne
    | set port v =>
      simp only [runInstr] at h
      split at h
      · exact StepRes.noConfusion h
      · split at h
        · exact StepRes.noConfusion h
        · injection h with h2
          subst h2
          rfl
    | eval =>
      simp only [runInstr] at h
      split at h
      · exact StepRes.noConfusion h
      · injection h with h2
        subst h2
        rfl
    | tick =>
      simp only [runInstr] at h
      split at h
      · exact StepRes.noConfusion h
      · injection h with h2
        subst h2
        rfl
    | tock =>
      simp only [runInstr] at h
      split at h
      · exact StepRes.noConfusion h
      · split at h
        · exact StepRes.noConfusion h
        · injection h with h2
          subst h2
          rfl

theorem run_test_error_iff_mismatch_witness :
    (runTestOutcome simUnit [] [BusMap.new] () [[Instruction.output]] =
        TestOutcome.err ↔
      0 < (RunSt.mk () BusMap.new BusMap.new 1 0 : RunSt Unit).failures) ∧
    runInstr simUnit [] [BusMap.new] (initRunSt ()) .output =
      .cont { (initRunSt () : RunSt Unit) with
              failures := (initRunSt () : RunSt Unit).failures +
                (if BusMap.ple BusMap.new (initRunSt () : RunSt Unit).outputs
                 then 0 else 1),
              cmpIdx := (initRunSt () : RunSt Unit).cmpIdx + 1 } ∧
    (RunSt.mk () BusMap.new BusMap.new 0 0 : RunSt Unit).failures =
      (initRunSt () : RunSt Unit).failures :=
  ⟨(run_test_error_iff_mismatch simUnit [] [BusMap.new] () [[.output]]).1
      (RunSt.mk () BusMap.new BusMap.new 1 0) rfl,
   (run_test_error_iff_mismatch simUnit [] [BusMap.new] () [[.output]]).2.1
      (initRunSt ()) BusMap.new rfl,
   (run_test_error_iff_mismatch simUnit [] [BusMap.new] () [[.output]]).2.2
      (initRunSt ()) (RunSt.mk () BusMap.new BusMap.new 0 0) .tick
      (by intro hc; cases hc) rfl⟩

end Whidl
